import Mathlib

/-!
# Verification of the Humality client orchestration layer

Shallow embedding of the concurrency/state-machine core of the Humality
AI-text-humanizer client (`src/App.tsx`, `src/services/history.ts`):
the debounced analysis pipeline, the conversion orchestrator, the
progressive output revealer and the history reconciliation logic.
External collaborators (rewrite service, detector, identity provider,
persisted store) are modelled as explicit parameters; the single-threaded
event-loop scheduling of the browser is modelled as an explicit event
sequence folded over a step function.
-/

namespace Humality

/-- A sentence-sized slice of text with its own AI probability
(`TextSegment` in `App.tsx`). Probabilities are embedded as rationals. -/
structure TextSegment where
  text : String
  aiProbability : ℚ
  deriving Repr, DecidableEq

/-- `DetectionResult` in `App.tsx`: aggregate score 0-100, a textual
analysis, and an optional per-segment breakdown. -/
structure DetectionResult where
  score : Int
  analysis : String
  segments : Option (List TextSegment) := none
  deriving Repr, DecidableEq

/-- Model of the JavaScript `String.prototype.trim` used throughout the
source: strip whitespace from both ends. Defined structurally over the
character list so that it evaluates by kernel reduction. -/
def jsTrim (s : String) : String :=
  ⟨((s.data.dropWhile Char.isWhitespace).reverse.dropWhile Char.isWhitespace).reverse⟩

/- ## DebouncedAnalyzer (`handleInputChange` and its timeout callback) -/

/-- The slice of `App` component state touched by the debounced input
analysis: the input text, the pending debounce timer (carrying the text
captured by the timeout closure), the `isDetecting` flag, the visible
`inputAIAnalysis`, and the set of detection requests currently in flight
(issued fetches whose responses have not yet arrived). -/
structure AnalyzerState where
  inputText : String
  detectionTimeout : Option String
  isDetecting : Bool
  inputAIAnalysis : Option DetectionResult
  inFlight : List String
  deriving Repr, DecidableEq

/-- Initial analyzer state of a freshly mounted component. -/
def analyzerInit : AnalyzerState :=
  { inputText := "", detectionTimeout := none, isDetecting := false,
    inputAIAnalysis := none, inFlight := [] }

/-- `handleInputChange` (`App.tsx` lines 832-866): store the text, clear
any pending debounce timer; if the trimmed text is shorter than 10
characters, clear the analysis state and issue nothing; otherwise set
`isDetecting` and arm a fresh 1000 ms timer capturing the text. -/
def handleInputChange (s : AnalyzerState) (text : String) : AnalyzerState :=
  let s := { s with inputText := text, detectionTimeout := none }
  if (jsTrim text).length < 10 then
    { s with inputAIAnalysis := none, isDetecting := false }
  else
    { s with isDetecting := true, detectionTimeout := some text }

/-- Events interleaved on the single-threaded event loop: a keystroke, the
debounce timer firing (which issues the fetch for the captured text), and
the arrival of a detect response (successful with a result, or failed). -/
inductive AnalyzerEvent where
  | textChange (text : String)
  | timerFire
  | responseOk (text : String) (result : DetectionResult)
  | responseErr (text : String)
  deriving Repr, DecidableEq

/-- One scheduler step of the debounced analyzer. The timeout callback
issues the request for its captured text; a response for an in-flight
request applies `setInputAIAnalysis(data)` directly on success (there is
no request token in the code) and in both cases runs the `finally` block
clearing `isDetecting`. -/
def analyzerStep (s : AnalyzerState) : AnalyzerEvent → AnalyzerState
  | .textChange t => handleInputChange s t
  | .timerFire =>
      match s.detectionTimeout with
      | some t => { s with detectionTimeout := none, inFlight := s.inFlight ++ [t] }
      | none => s
  | .responseOk t r =>
      if s.inFlight.contains t then
        { s with inFlight := s.inFlight.erase t,
                 inputAIAnalysis := some r, isDetecting := false }
      else s
  | .responseErr t =>
      if s.inFlight.contains t then
        { s with inFlight := s.inFlight.erase t, isDetecting := false }
      else s

/-- Fold a sequence of scheduler events over the analyzer. -/
def analyzerRun (s : AnalyzerState) (evs : List AnalyzerEvent) : AnalyzerState :=
  evs.foldl analyzerStep s

/-- Request A issued, then request B, B resolving first, A last. -/
def staleRunEvents : List AnalyzerEvent :=
  [ .textChange "aaaaaaaaaaaaaa", .timerFire,
    .textChange "bbbbbbbbbbbbbb", .timerFire,
    .responseOk "bbbbbbbbbbbbbb" { score := 10, analysis := "B" },
    .responseOk "aaaaaaaaaaaaaa" { score := 90, analysis := "A" } ]

/- ## ScoringEngine -/

/-- Modelled from the spec: the sentence-terminator test of the
ScoringEngine's splitter (`.`, `!`, `?` inclusive). The local heuristic
scoring engine itself is absent from `src/` (the shipped client calls the
remote detector); it is reconstructed here from spec section 4.1. -/
def isSentenceTerminator (c : Char) : Bool :=
  c = '.' || c = '!' || c = '?'

/-- Modelled from the spec: splitting worker. Accumulates the current
unit (in reverse); a terminator closes the unit (terminator kept with its
unit), and a trailing remainder without terminator forms a final unit, so
that an input with no terminator is one single unit. -/
def splitUnitsAux : List Char → List Char → List (List Char)
  | [], acc => if acc = [] then [] else [acc.reverse]
  | c :: cs, acc =>
      if isSentenceTerminator c then
        (c :: acc).reverse :: splitUnitsAux cs []
      else
        splitUnitsAux cs (c :: acc)

/-- Modelled from the spec: split text into sentence-like units via the
sentence-terminator pattern; if no terminator is found the whole input is
one unit. -/
def splitUnits (l : List Char) : List (List Char) :=
  splitUnitsAux l []

/-- Modelled from the spec: the configurable indicator sets and constants
of the ScoringEngine (formal/AI-style phrase indicators, informal/human
indicators, fixed increment and decrement, medium-length bonus). The
exact constants are configuration, not contract. -/
structure ScoringConfig where
  formalIndicators : List String
  informalIndicators : List String
  baseScore : ℚ
  increment : ℚ
  decrement : ℚ
  mediumLengthBonus : ℚ
  deriving Repr, DecidableEq

/-- Count of indicator phrases matching inside a unit (substring test,
one fixed increment per matching indicator). -/
def countIndicatorMatches (indicators : List String) (unit : List Char) : Nat :=
  (indicators.filter (fun p => decide (p.data <:+: unit))).length

/-- Words of a unit: maximal runs of non-whitespace characters. -/
def wordCount (unit : List Char) : Nat :=
  ((String.mk unit).split Char.isWhitespace |>.filter (fun w => w ≠ "")).length

/-- Modelled from the spec: a unit's raw signed score — base plus a fixed
increment per formal/AI-style indicator match, minus a fixed decrement
per informal/human indicator match, plus a bonus when the word count
falls in the medium-length band (15-30 words), plus a bounded jitter
supplied per unit index (the source of randomness is a parameter, keeping
the function pure). -/
def rawUnitScore (cfg : ScoringConfig) (jitter : ℚ) (unit : List Char) : ℚ :=
  cfg.baseScore
    + cfg.increment * countIndicatorMatches cfg.formalIndicators unit
    - cfg.decrement * countIndicatorMatches cfg.informalIndicators unit
    + (if 15 ≤ wordCount unit ∧ wordCount unit ≤ 30 then cfg.mediumLengthBonus else 0)
    + jitter

/-- Clamp a unit's raw score to the interval [0, 1]. -/
def clampProb (q : ℚ) : ℚ := max 0 (min 1 q)

/-- Modelled from the spec: build the ordered segment sequence, one
segment per unit, each carrying the unit's clamped probability; the
jitter function is consulted at the unit's position. -/
def mkSegments (cfg : ScoringConfig) (jitter : Nat → ℚ) :
    List (List Char) → Nat → List TextSegment
  | [], _ => []
  | u :: us, i =>
      { text := String.mk u,
        aiProbability := clampProb (rawUnitScore cfg (jitter i) u) }
        :: mkSegments cfg jitter us (i + 1)

/-- Rounded mean of the segment probabilities times 100 (0 for an empty
segment list, where the rational mean degenerates to 0). -/
def aggregateScore (segs : List TextSegment) : Int :=
  round (((segs.map TextSegment.aiProbability).sum / segs.length) * 100)

/-- Modelled from the spec: `score(text, isTransformed)` of the
ScoringEngine, absent from `src/`. Empty text yields the identity
zero-result (score 0, no segments); otherwise the text is split into
sentence-like units, each unit is scored and clamped, and the aggregate
is the rounded mean times 100. The jitter stream (biased downward when
`isTransformed` is true) is abstracted as a pure function parameter. -/
def scoringEngine (cfg : ScoringConfig) (jitter : Nat → ℚ) (text : String) :
    DetectionResult :=
  if text = "" then
    { score := 0, analysis := "", segments := some [] }
  else
    let segs := mkSegments cfg jitter (splitUnits text.data) 0
    { score := aggregateScore segs,
      analysis := "heuristic sentence-level estimate",
      segments := some segs }

/- ## ConversionOrchestrator (`handleConvert`) -/

/-- A conversion record in the local history list (`HistoryEntry` in
`App.tsx`). -/
structure HistoryEntry where
  id : String
  inputText : String
  outputText : String
  tone : String
  inputAIPercentage : Int
  outputAIPercentage : Int
  timestamp : Nat
  deriving Repr, DecidableEq

/-- The signed-in identity (`User` in `App.tsx`). -/
structure Identity where
  uid : String
  name : String
  email : String
  deriving Repr, DecidableEq

/-- Outcome of the rewrite collaborator call
(`POST /humanize-with-detection`): either a non-ok HTTP response whose
body may carry a `detail` message, or an ok response carrying the
transformed text and the two detection results. -/
inductive RewriteResponse where
  | httpError (detail : Option String)
  | ok (humanizedText : String) (inputDetection outputDetection : DetectionResult)
  deriving Repr, DecidableEq

/-- Observable side effects of `handleConvert`, in program order. -/
inductive ConvertEvent where
  | setConverting (b : Bool)
  | setDetecting (b : Bool)
  | issueRewrite (text tone : String)
  | remotePersist (uid : String)
  | toastError (msg : String)
  | toastSuccess (msg : String)
  deriving Repr, DecidableEq

/-- Result of one `handleConvert` call: overall outcome, ordered side
effect trace, resulting local history list, resulting output text and
final `isConverting` flag. -/
structure ConvertResult where
  succeeded : Bool
  events : List ConvertEvent
  history : List HistoryEntry
  outputText : String
  isConverting : Bool
  deriving Repr, DecidableEq

/-- `handleConvert` (`App.tsx` lines 868-953). Blank input is rejected
with a toast before any flag or network activity. Otherwise the
`isConverting` flag is raised, output state cleared, and the rewrite
collaborator invoked: a non-ok response throws with the body's `detail`
(or a generic message) and is caught as a user-visible error; an ok
response is accepted as-is (`data.humanized_text` is used without an
emptiness check). When an identity is present, the record is persisted
remotely first; persistence failure is caught, surfaces a sync warning,
and the record is still appended locally under the surrogate id
`Date.now().toString()`. The `finally` block lowers `isConverting` and
`isDetecting` on every path past validation. The remote persistence
outcome (`saveHistoryEntry`, `services/history.ts`) and `Date.now()` are
explicit parameters. -/
def handleConvert (inputText tone : String) (user : Option Identity)
    (resp : RewriteResponse) (saveResult : Except String String)
    (now : Nat) (history : List HistoryEntry) (prevOutput : String) :
    ConvertResult :=
  if jsTrim inputText = "" then
    { succeeded := false,
      events := [.toastError "Please enter some text to humanize"],
      history := history, outputText := prevOutput, isConverting := false }
  else
    match resp with
    | .httpError detail =>
        { succeeded := false,
          events := [.setConverting true, .issueRewrite inputText tone,
                     .toastError (detail.getD "Failed to humanize text. Please try again."),
                     .setConverting false, .setDetecting false],
          history := history, outputText := "", isConverting := false }
    | .ok humanized inDet outDet =>
        match user with
        | none =>
            { succeeded := true,
              events := [.setConverting true, .issueRewrite inputText tone,
                         .toastSuccess "Text humanized and analyzed successfully!",
                         .setConverting false, .setDetecting false],
              history := history, outputText := humanized, isConverting := false }
        | some u =>
            let entryId : String :=
              match saveResult with
              | .ok docId => docId
              | .error _ => toString now
            let syncEvents : List ConvertEvent :=
              match saveResult with
              | .ok _ => []
              | .error _ =>
                  [.toastError "Saved conversion locally, but syncing to the cloud failed."]
            let newEntry : HistoryEntry :=
              { id := entryId, inputText := inputText, outputText := humanized,
                tone := tone, inputAIPercentage := inDet.score,
                outputAIPercentage := outDet.score, timestamp := now }
            { succeeded := true,
              events := [.setConverting true, .issueRewrite inputText tone,
                         .remotePersist u.uid] ++ syncEvents ++
                        [.toastSuccess "Text humanized and analyzed successfully!",
                         .setConverting false, .setDetecting false],
              history := newEntry :: history, outputText := humanized,
              isConverting := false }

/- ## HistoryStore mutations (`deleteHistoryEntry`, `clearAllHistory`) -/

/-- A surfaced user notification. -/
inductive Toast where
  | error (msg : String)
  | success (msg : String)
  deriving Repr, DecidableEq

/-- Result of a history mutation: the resulting local list and the
surfaced toasts, in order. -/
structure MutationResult where
  history : List HistoryEntry
  toasts : List Toast
  deriving Repr, DecidableEq

/-- Whether a remote delete outcome is a success. -/
def remoteOk (r : Except String Unit) : Bool :=
  match r with
  | .ok _ => true
  | .error _ => false

/-- `deleteHistoryEntry` (`App.tsx` lines 969-982): when an Identity is
present, the Firestore delete is issued first; if it fails, an error is
surfaced and the function returns with the local list untouched. Only
after remote success (or when anonymous, with nothing remote to target)
is the entry filtered out of the local list. The remote delete outcome is
a function parameter. -/
def deleteHistoryEntry (user : Option Identity)
    (remoteDelete : String → Except String Unit)
    (history : List HistoryEntry) (id : String) : MutationResult :=
  match user with
  | some _ =>
      if remoteOk (remoteDelete id) then
        { history := history.filter (fun e => e.id != id),
          toasts := [.success "History entry deleted"] }
      else
        { history := history,
          toasts := [.error "Unable to delete entry right now."] }
  | none =>
      { history := history.filter (fun e => e.id != id),
        toasts := [.success "History entry deleted"] }

/-- `clearAllHistory` (`App.tsx` lines 984-1004): an empty list is a
no-op; otherwise, when an Identity is present, all remote deletes are
issued (`Promise.all`) and any failure aborts with an error toast,
leaving the local list untouched; only when all remote deletes succeed
(or anonymously) is the local list emptied. -/
def clearAllHistory (user : Option Identity)
    (remoteDelete : String → Except String Unit)
    (history : List HistoryEntry) : MutationResult :=
  if history.isEmpty then
    { history := history, toasts := [] }
  else
    match user with
    | some _ =>
        if history.all (fun e => remoteOk (remoteDelete e.id)) then
          { history := [], toasts := [.success "History cleared"] }
        else
          { history := history,
            toasts := [.error "Unable to clear history right now."] }
    | none => { history := [], toasts := [.success "History cleared"] }

/- ## Identity transitions (`onAuthStateChanged` effect, `fetchHistoryEntries`) -/

/-- A persisted history document (`HistoryEntryDocument` in
`services/history.ts`); `createdAt` is the server timestamp, null for a
document whose timestamp has not materialised. -/
structure HistoryEntryDocument where
  id : String
  inputText : String
  outputText : String
  tone : String
  inputAIPercentage : Int
  outputAIPercentage : Int
  createdAt : Option Nat
  deriving Repr, DecidableEq

/-- Sort key used by the Firestore query: the creation time (documents
with a null timestamp sort as 0). -/
def createdKey (d : HistoryEntryDocument) : Nat :=
  d.createdAt.getD 0

/-- Modelled from the spec: insertion into a newest-first ordered list,
part of the persisted-history collaborator's `list` semantics (section
6), which is not under `src/`. -/
def insertByCreatedDesc (d : HistoryEntryDocument) :
    List HistoryEntryDocument → List HistoryEntryDocument
  | [] => [d]
  | e :: es =>
      if createdKey d ≤ createdKey e then e :: insertByCreatedDesc d es
      else d :: e :: es

/-- Modelled from the spec: ordering the persisted collection by creation
time descending, the semantics of the external store's
`orderBy(createdAt, desc)`. -/
def sortByCreatedDesc : List HistoryEntryDocument → List HistoryEntryDocument
  | [] => []
  | d :: ds => insertByCreatedDesc d (sortByCreatedDesc ds)

/-- `fetchHistoryEntries` (`services/history.ts` lines 47-62) composed
with the external store's query semantics (modelled from the spec,
section 6: ordered sequence, bounded page): the persisted documents
ordered newest-first, limited to `take` (source default 20). -/
def fetchHistoryEntries (docs : List HistoryEntryDocument)
    (take : Nat := 20) : List HistoryEntryDocument :=
  (sortByCreatedDesc docs).take take

/-- `mapHistoryDocumentToEntry` (`App.tsx` lines 685-695): map a fetched
document to a local entry; a null `createdAt` falls back to `Date.now()`
(the current instant is a parameter). -/
def mapHistoryDocumentToEntry (now : Nat) (d : HistoryEntryDocument) :
    HistoryEntry :=
  { id := d.id, inputText := d.inputText, outputText := d.outputText,
    tone := d.tone, inputAIPercentage := d.inputAIPercentage,
    outputAIPercentage := d.outputAIPercentage,
    timestamp := match d.createdAt with | some t => t | none => now }

/-- The slice of component state the identity listener touches, together
with the remote persisted collection (carried to express that sign-out
issues no remote deletion). -/
structure AuthHistoryState where
  user : Option Identity
  history : List HistoryEntry
  remoteDocs : List HistoryEntryDocument
  deriving Repr, DecidableEq

/-- The `onAuthStateChanged` effect (`App.tsx` lines 1148-1170): a
signed-in notification stores the identity and, when the remote fetch
succeeds, replaces the local list wholesale with the mapped fetch result
(on fetch failure an error is surfaced and the list is left as it was); a
signed-out notification clears the identity and the local list, touching
nothing remote. -/
def onAuthStateChangedHandler (fbUser : Option Identity) (fetchOk : Bool)
    (now : Nat) (s : AuthHistoryState) : AuthHistoryState :=
  match fbUser with
  | some u =>
      if fetchOk then
        { user := some u,
          history := (fetchHistoryEntries s.remoteDocs).map
            (mapHistoryDocumentToEntry now),
          remoteDocs := s.remoteDocs }
      else
        { user := some u, history := s.history, remoteDocs := s.remoteDocs }
  | none => { user := none, history := [], remoteDocs := s.remoteDocs }

/- ## ProgressiveRevealer (output animation effect) -/

/-- The slice of component state driving the typewriter output reveal:
the target string (`outputText`, as a character list), the animate flag,
the displayed value, the animation flag, the reveal position and whether
a reveal timer is pending (`outputAnimationTimeoutRef`). -/
structure RevealerState where
  outputText : List Char
  shouldAnimate : Bool
  displayed : List Char
  isAnimating : Bool
  index : Nat
  timerArmed : Bool
  deriving Repr, DecidableEq

/-- Freshly mounted component: nothing to display. -/
def revealerInit : RevealerState :=
  { outputText := [], shouldAnimate := false, displayed := [],
    isAnimating := false, index := 0, timerArmed := false }

/-- The output-animation `useEffect` body (`App.tsx` lines 1194-1236),
run whenever the target or the animate flag changes: it first clears any
pending timer; an empty target clears the display; a target not flagged
animate is displayed at once; otherwise the display is reset and a fresh
reveal is started from position 0 with a new timer. -/
def runRevealEffect (s : RevealerState) : RevealerState :=
  let s := { s with timerArmed := false }
  if s.outputText = [] then
    { s with displayed := [], isAnimating := false, shouldAnimate := false }
  else if s.shouldAnimate = false then
    { s with displayed := s.outputText, isAnimating := false }
  else
    { s with displayed := [], isAnimating := true, index := 0, timerArmed := true }

/-- Scheduler events for the revealer: arrival of a new target (the
effect re-runs, its cleanup having cancelled the previous timer first),
and one ~12 ms animation tick. -/
inductive RevealerEvent where
  | setOutput (text : List Char) (animate : Bool)
  | tick
  deriving Repr, DecidableEq

/-- One scheduler step of the revealer. A tick with a pending timer is
the `animate` callback: advance the position by one, display
`outputText.slice(0, index)`, and either re-arm the timer or finish. A
tick with no pending timer (cancelled) does nothing. -/
def revealerStep (s : RevealerState) : RevealerEvent → RevealerState
  | .setOutput t a => runRevealEffect { s with outputText := t, shouldAnimate := a }
  | .tick =>
      if s.timerArmed then
        if s.index + 1 < s.outputText.length then
          { s with index := s.index + 1,
                   displayed := s.outputText.take (s.index + 1) }
        else
          { s with index := s.index + 1,
                   displayed := s.outputText.take (s.index + 1),
                   isAnimating := false, shouldAnimate := false,
                   timerArmed := false }
      else s

/-- Fold a sequence of scheduler events over the revealer. -/
def revealerRun (s : RevealerState) (evs : List RevealerEvent) : RevealerState :=
  evs.foldl revealerStep s

/-- Revealer invariant: the displayed value is a prefix of the current
target, and while a reveal timer is pending the displayed value is
exactly the first `index` characters of the target. -/
def RevealerInv (s : RevealerState) : Prop :=
  s.displayed <+: s.outputText ∧
  (s.timerArmed = true → s.displayed = s.outputText.take s.index)

/-! ## Theorems -/

/-- C1: counterexample. Two debounced requests are issued in order A then
B (both for the input-text field) and A's response arrives after B's; the
visible analysis state ends as A's result, not B's — the code applies
every in-flight response directly, with no token-based staleness check,
so an older request's late response does overwrite the newer result. -/
theorem C1_counterexample :
    (analyzerRun analyzerInit staleRunEvents).inputAIAnalysis
      = some { score := 90, analysis := "A" } ∧
    ({ score := 90, analysis := "A" } : DetectionResult)
      ≠ { score := 10, analysis := "B" } := by
  constructor
  · decide
  · decide

/-- C1 (amended): the code has no request token, so results are applied
in response-arrival order: whenever two requests A and B are both in
flight and A's response arrives after B's, the visible analysis state
ends as A's result (the stale overwrite the original claim rules out).
Superseding is effective only before the debounce timer fires: a text
change cancels the pending timer and by itself issues no request. -/
theorem C1_amended (s : AnalyzerState) (tA tB : String)
    (rA rB : DetectionResult)
    (hB : (analyzerStep s (.responseOk tB rB)).inFlight.contains tA = true) :
    (analyzerRun s [.responseOk tB rB, .responseOk tA rA]).inputAIAnalysis
      = some rA ∧
    (∀ t, (analyzerStep s (.textChange t)).inFlight = s.inFlight ∧
          (analyzerStep s (.textChange t)).detectionTimeout ≠ some tA ∨ t = tA) := by
  constructor
  · show (analyzerStep (analyzerStep s (.responseOk tB rB))
        (.responseOk tA rA)).inputAIAnalysis = some rA
    generalize analyzerStep s (.responseOk tB rB) = s1 at hB ⊢
    have hmem : tA ∈ s1.inFlight := by simpa using hB
    simp [analyzerStep, hmem]
  · intro t
    by_cases ht : t = tA
    · exact Or.inr ht
    · left
      constructor
      · simp only [analyzerStep, handleInputChange]
        by_cases h10 : (jsTrim t).length < 10 <;> simp [h10]
      · simp only [analyzerStep, handleInputChange]
        by_cases h10 : (jsTrim t).length < 10 <;> simp [h10, ht]

/-- Witness for `C1_amended` at a concrete state with both requests in
flight. -/
theorem C1_amended_witness :
    (analyzerRun
        { inputText := "bbbbbbbbbbbbbb", detectionTimeout := none,
          isDetecting := true, inputAIAnalysis := none,
          inFlight := ["aaaaaaaaaaaaaa", "bbbbbbbbbbbbbb"] }
        [.responseOk "bbbbbbbbbbbbbb" { score := 10, analysis := "B" },
         .responseOk "aaaaaaaaaaaaaa" { score := 90, analysis := "A" }]).inputAIAnalysis
      = some { score := 90, analysis := "A" } :=
  (C1_amended
    { inputText := "bbbbbbbbbbbbbb", detectionTimeout := none,
      isDetecting := true, inputAIAnalysis := none,
      inFlight := ["aaaaaaaaaaaaaa", "bbbbbbbbbbbbbb"] }
    "aaaaaaaaaaaaaa" "bbbbbbbbbbbbbb"
    { score := 90, analysis := "A" } { score := 10, analysis := "B" }
    (by decide)).1

/-- C8: a text-change event whose text has trimmed length below 10
immediately clears the analysis result and the `isDetecting` flag,
cancels any pending debounce timer, and issues no analysis request (the
in-flight set is untouched). -/
theorem C8_short_text_clears (s : AnalyzerState) (t : String)
    (h : (jsTrim t).length < 10) :
    (analyzerStep s (.textChange t)).inputAIAnalysis = none ∧
    (analyzerStep s (.textChange t)).isDetecting = false ∧
    (analyzerStep s (.textChange t)).detectionTimeout = none ∧
    (analyzerStep s (.textChange t)).inFlight = s.inFlight := by
  simp [analyzerStep, handleInputChange, h]

/-- Witness for `C8_short_text_clears`: a short text on a state holding a
stale analysis and an armed timer. -/
theorem C8_short_text_clears_witness :
    (analyzerStep
        { inputText := "previous long text", detectionTimeout := some "previous long text",
          isDetecting := true,
          inputAIAnalysis := some { score := 42, analysis := "old" },
          inFlight := [] }
        (.textChange "hi")).inputAIAnalysis = none :=
  (C8_short_text_clears
    { inputText := "previous long text", detectionTimeout := some "previous long text",
      isDetecting := true,
      inputAIAnalysis := some { score := 42, analysis := "old" },
      inFlight := [] }
    "hi" (by decide)).1

theorem splitUnitsAux_flatten (cs : List Char) :
    ∀ acc, (splitUnitsAux cs acc).flatten = acc.reverse ++ cs := by
  induction cs with
  | nil =>
      intro acc
      by_cases h : acc = [] <;> simp [splitUnitsAux, h]
  | cons c cs ih =>
      intro acc
      by_cases h : isSentenceTerminator c <;>
        simp [splitUnitsAux, h, ih]

theorem mkSegments_texts (cfg : ScoringConfig) (jitter : Nat → ℚ) :
    ∀ (us : List (List Char)) (i : Nat),
      (mkSegments cfg jitter us i).map TextSegment.text = us.map String.mk := by
  intro us
  induction us with
  | nil => intro i; simp [mkSegments]
  | cons u us ih => intro i; simp [mkSegments, ih]

theorem flatten_map_mk (us : List (List Char)) :
    ((us.map String.mk).foldl (fun r s => r ++ s) "") = String.mk us.flatten := by
  suffices h : ∀ acc, ((us.map String.mk).foldl (fun r s => r ++ s) (String.mk acc))
      = String.mk (acc ++ us.flatten) by
    simpa using h []
  induction us with
  | nil => intro acc; simp
  | cons u us ih =>
      intro acc
      have happ : String.mk acc ++ String.mk u = String.mk (acc ++ u) := rfl
      simp [happ, ih]

/-- C9: for every text, concatenating the segment texts of
ScoringEngine's result in order reproduces the text exactly — no
characters dropped or reordered, under every configuration and every
jitter stream. -/
theorem C9_segments_reconstruct (cfg : ScoringConfig) (jitter : Nat → ℚ)
    (text : String) :
    String.join (((scoringEngine cfg jitter text).segments.getD []).map
      TextSegment.text) = text := by
  by_cases h : text = ""
  · simp [scoringEngine, h, String.join]
  · obtain ⟨l⟩ := text
    simp only [scoringEngine, h, if_false, Option.getD_some, String.join]
    rw [mkSegments_texts, flatten_map_mk, splitUnits, splitUnitsAux_flatten]
    simp

/-- C2: counterexample. The rewrite collaborator responds with success
but an empty transformed text, yet the conversion succeeds (no
TransformError) and a ConversionRecord is still created: the code uses
`data.humanized_text` without any emptiness check. -/
theorem C2_counterexample :
    (handleConvert "The weather is lovely today." "natural"
        (some { uid := "u1", name := "N", email := "n@x.io" })
        (.ok "" { score := 80, analysis := "a" } { score := 20, analysis := "b" })
        (.ok "doc1") 1000 [] "").succeeded = true ∧
    (handleConvert "The weather is lovely today." "natural"
        (some { uid := "u1", name := "N", email := "n@x.io" })
        (.ok "" { score := 80, analysis := "a" } { score := 20, analysis := "b" })
        (.ok "doc1") 1000 [] "").history.length = 1 := by
  constructor
  · decide
  · decide

/-- C2 (amended): a success response from the rewrite collaborator is
accepted as-is even when its transformed text is empty — no
TransformError is raised, the conversion succeeds with the empty output,
and when an Identity is present a ConversionRecord is still created. -/
theorem C2_empty_response_accepted (inputText tone : String) (u : Identity)
    (inDet outDet : DetectionResult) (saveResult : Except String String)
    (now : Nat) (history : List HistoryEntry) (prevOutput : String)
    (h : jsTrim inputText ≠ "") :
    (handleConvert inputText tone (some u) (.ok "" inDet outDet)
        saveResult now history prevOutput).succeeded = true ∧
    (handleConvert inputText tone (some u) (.ok "" inDet outDet)
        saveResult now history prevOutput).history.length
      = history.length + 1 ∧
    (handleConvert inputText tone (some u) (.ok "" inDet outDet)
        saveResult now history prevOutput).outputText = "" := by
  simp only [handleConvert, h, if_false]
  cases saveResult <;> simp

/-- Witness for `C2_empty_response_accepted`. -/
theorem C2_empty_response_accepted_witness :
    (handleConvert "The weather is lovely today." "casual"
        (some { uid := "u2", name := "M", email := "m@x.io" })
        (.ok "" { score := 70, analysis := "a" } { score := 30, analysis := "b" })
        (.error "network down") 2000 [] "old").succeeded = true :=
  (C2_empty_response_accepted "The weather is lovely today." "casual"
    { uid := "u2", name := "M", email := "m@x.io" }
    { score := 70, analysis := "a" } { score := 30, analysis := "b" }
    (.error "network down") 2000 [] "old" (by decide)).1

/-- C5: a successful conversion with an Identity present whose remote
persist fails still appends the record to the local history list (new
length = old length + 1) under the locally generated surrogate id
`Date.now().toString()`, surfaces the non-fatal sync warning, and the
conversion itself still succeeds. -/
theorem C5_add_remote_failure (inputText tone humanized : String)
    (u : Identity) (inDet outDet : DetectionResult) (err : String)
    (now : Nat) (history : List HistoryEntry) (prevOutput : String)
    (h : jsTrim inputText ≠ "") :
    (handleConvert inputText tone (some u) (.ok humanized inDet outDet)
        (.error err) now history prevOutput).succeeded = true ∧
    (handleConvert inputText tone (some u) (.ok humanized inDet outDet)
        (.error err) now history prevOutput).history
      = { id := toString now, inputText := inputText, outputText := humanized,
          tone := tone, inputAIPercentage := inDet.score,
          outputAIPercentage := outDet.score, timestamp := now } :: history ∧
    ConvertEvent.toastError "Saved conversion locally, but syncing to the cloud failed."
      ∈ (handleConvert inputText tone (some u) (.ok humanized inDet outDet)
          (.error err) now history prevOutput).events := by
  simp [handleConvert, h]

/-- Witness for `C5_add_remote_failure`. -/
theorem C5_add_remote_failure_witness :
    (handleConvert "A long enough sample input." "natural"
        (some { uid := "u3", name := "P", email := "p@x.io" })
        (.ok "A humanized answer." { score := 85, analysis := "a" }
          { score := 15, analysis := "b" })
        (.error "firestore unavailable") 4242 [] "").history
      = [{ id := "4242", inputText := "A long enough sample input.",
           outputText := "A humanized answer.", tone := "natural",
           inputAIPercentage := 85, outputAIPercentage := 15,
           timestamp := 4242 }] :=
  (C5_add_remote_failure "A long enough sample input." "natural"
    "A humanized answer."
    { uid := "u3", name := "P", email := "p@x.io" }
    { score := 85, analysis := "a" } { score := 15, analysis := "b" }
    "firestore unavailable" 4242 [] "" (by decide)).2.1

/-- C6: every successful convert call appends exactly one record to the
local history list when an Identity is present (the new list is the new
entry consed onto the old) and appends nothing when no Identity is
present. -/
theorem C6_append_exactly_one (inputText tone humanized : String)
    (user : Option Identity) (inDet outDet : DetectionResult)
    (saveResult : Except String String) (now : Nat)
    (history : List HistoryEntry) (prevOutput : String)
    (h : jsTrim inputText ≠ "") :
    (handleConvert inputText tone user (.ok humanized inDet outDet)
        saveResult now history prevOutput).succeeded = true ∧
    (handleConvert inputText tone user (.ok humanized inDet outDet)
        saveResult now history prevOutput).history.length
      = history.length + (if user.isSome then 1 else 0) ∧
    (user.isSome = true →
      (handleConvert inputText tone user (.ok humanized inDet outDet)
          saveResult now history prevOutput).history.tail? = some history) ∧
    (user = none →
      (handleConvert inputText tone user (.ok humanized inDet outDet)
          saveResult now history prevOutput).history = history) := by
  simp only [handleConvert, h, if_false]
  cases user <;> cases saveResult <;> simp

/-- Witness for `C6_append_exactly_one`: anonymous conversion appends
nothing. -/
theorem C6_append_exactly_one_witness :
    (handleConvert "A long enough sample input." "creative" none
        (.ok "Out." { score := 50, analysis := "a" } { score := 10, analysis := "b" })
        (.ok "unused") 7 [] "").history = [] :=
  (C6_append_exactly_one "A long enough sample input." "creative" "Out."
    none { score := 50, analysis := "a" } { score := 10, analysis := "b" }
    (.ok "unused") 7 [] "" (by decide)).2.2.2 rfl

/-- C10: a convert call passing the non-blank validation raises the
`isConverting` flag before the rewrite request is issued and lowers it by
completion on every path (the trace is `setConverting true`, then the
rewrite request, then a middle section, then `setConverting false` and
`setDetecting false`), and the final flag is false; a validation-rejected
call never touches the flag. -/
theorem C10_converting_flag (inputText tone : String) (user : Option Identity)
    (resp : RewriteResponse) (saveResult : Except String String) (now : Nat)
    (history : List HistoryEntry) (prevOutput : String) :
    (jsTrim inputText = "" →
      (handleConvert inputText tone user resp saveResult now history
          prevOutput).isConverting = false ∧
      ∀ b, ConvertEvent.setConverting b ∉
        (handleConvert inputText tone user resp saveResult now history
          prevOutput).events) ∧
    (jsTrim inputText ≠ "" →
      (∃ mid, (handleConvert inputText tone user resp saveResult now history
          prevOutput).events
        = ConvertEvent.setConverting true :: ConvertEvent.issueRewrite inputText tone ::
            mid ++ [ConvertEvent.setConverting false, ConvertEvent.setDetecting false]) ∧
      (handleConvert inputText tone user resp saveResult now history
          prevOutput).isConverting = false) := by
  constructor
  · intro h
    simp [handleConvert, h]
  · intro h
    refine ⟨?_, ?_⟩
    · cases resp with
      | httpError detail =>
          exact ⟨[.toastError (detail.getD "Failed to humanize text. Please try again.")],
            by simp [handleConvert, h]⟩
      | ok humanized inDet outDet =>
          cases user with
          | none =>
              exact ⟨[.toastSuccess "Text humanized and analyzed successfully!"],
                by simp [handleConvert, h]⟩
          | some u =>
              cases saveResult with
              | ok docId =>
                  exact ⟨[.remotePersist u.uid,
                          .toastSuccess "Text humanized and analyzed successfully!"],
                    by simp [handleConvert, h]⟩
              | error e =>
                  exact ⟨[.remotePersist u.uid,
                          .toastError "Saved conversion locally, but syncing to the cloud failed.",
                          .toastSuccess "Text humanized and analyzed successfully!"],
                    by simp [handleConvert, h]⟩
    · cases resp with
      | httpError detail => simp [handleConvert, h]
      | ok humanized inDet outDet => cases user <;> simp [handleConvert, h]

/-- Witness for `C10_converting_flag` at a blank and a non-blank call. -/
theorem C10_converting_flag_witness :
    (handleConvert "A long enough sample input." "natural" none
        (.httpError none) (.ok "unused") 3 [] "").isConverting = false :=
  ((C10_converting_flag "A long enough sample input." "natural" none
    (.httpError none) (.ok "unused") 3 [] "").2 (by decide)).2

/-- C4: with an Identity present, a failing remote delete leaves the
local history list unchanged and surfaces an error — for single-entry
delete whenever the remote delete of that id fails, and for clear
whenever the remote delete of any present entry fails (the local
mutation happens only after remote success). -/
theorem C4_remote_first_deletion :
    (∀ (u : Identity) (remoteDelete : String → Except String Unit)
        (history : List HistoryEntry) (id : String),
      remoteOk (remoteDelete id) = false →
        (deleteHistoryEntry (some u) remoteDelete history id).history = history ∧
        (deleteHistoryEntry (some u) remoteDelete history id).toasts
          = [.error "Unable to delete entry right now."]) ∧
    (∀ (u : Identity) (remoteDelete : String → Except String Unit)
        (history : List HistoryEntry) (e : HistoryEntry),
      e ∈ history → remoteOk (remoteDelete e.id) = false →
        (clearAllHistory (some u) remoteDelete history).history = history ∧
        (clearAllHistory (some u) remoteDelete history).toasts
          = [.error "Unable to clear history right now."]) := by
  constructor
  · intro u remoteDelete history id hfail
    simp [deleteHistoryEntry, hfail]
  · intro u remoteDelete history e he hfail
    have hne : history.isEmpty = false := by
      cases history with
      | nil => cases he
      | cons a l => rfl
    have hall : history.all (fun x => remoteOk (remoteDelete x.id)) = false := by
      apply List.all_eq_false.mpr
      exact ⟨e, he, by simp [hfail]⟩
    simp [clearAllHistory, hne, hall]

/-- Witness for `C4_remote_first_deletion`: a one-entry list whose remote
delete fails, for both delete and clear. -/
theorem C4_remote_first_deletion_witness :
    (deleteHistoryEntry (some { uid := "u1", name := "N", email := "n@x.io" })
        (fun _ => .error "offline")
        [{ id := "e1", inputText := "i", outputText := "o", tone := "natural",
           inputAIPercentage := 50, outputAIPercentage := 10, timestamp := 1 }]
        "e1").history
      = [{ id := "e1", inputText := "i", outputText := "o", tone := "natural",
           inputAIPercentage := 50, outputAIPercentage := 10, timestamp := 1 }] ∧
    (clearAllHistory (some { uid := "u1", name := "N", email := "n@x.io" })
        (fun _ => .error "offline")
        [{ id := "e1", inputText := "i", outputText := "o", tone := "natural",
           inputAIPercentage := 50, outputAIPercentage := 10, timestamp := 1 }]).history
      = [{ id := "e1", inputText := "i", outputText := "o", tone := "natural",
           inputAIPercentage := 50, outputAIPercentage := 10, timestamp := 1 }] :=
  ⟨(C4_remote_first_deletion.1 { uid := "u1", name := "N", email := "n@x.io" }
      (fun _ => .error "offline")
      [{ id := "e1", inputText := "i", outputText := "o", tone := "natural",
         inputAIPercentage := 50, outputAIPercentage := 10, timestamp := 1 }]
      "e1" rfl).1,
   (C4_remote_first_deletion.2 { uid := "u1", name := "N", email := "n@x.io" }
      (fun _ => .error "offline")
      [{ id := "e1", inputText := "i", outputText := "o", tone := "natural",
         inputAIPercentage := 50, outputAIPercentage := 10, timestamp := 1 }]
      { id := "e1", inputText := "i", outputText := "o", tone := "natural",
        inputAIPercentage := 50, outputAIPercentage := 10, timestamp := 1 }
      (by simp) rfl).1⟩

theorem mem_insertByCreatedDesc {x d : HistoryEntryDocument}
    {l : List HistoryEntryDocument} (hx : x ∈ insertByCreatedDesc d l) :
    x = d ∨ x ∈ l := by
  induction l with
  | nil => simpa [insertByCreatedDesc] using hx
  | cons e es ih =>
      by_cases hde : createdKey d ≤ createdKey e
      · simp only [insertByCreatedDesc, hde, if_true, List.mem_cons] at hx
        rcases hx with h | h
        · exact Or.inr (List.mem_cons.mpr (Or.inl h))
        · rcases ih h with h2 | h2
          · exact Or.inl h2
          · exact Or.inr (List.mem_cons.mpr (Or.inr h2))
      · simp only [insertByCreatedDesc, hde, if_false, List.mem_cons] at hx
        rcases hx with h | h
        · exact Or.inl h
        · exact Or.inr (List.mem_cons.mpr h)

theorem pairwise_insertByCreatedDesc (d : HistoryEntryDocument)
    (l : List HistoryEntryDocument)
    (hl : l.Pairwise (fun a b => createdKey b ≤ createdKey a)) :
    (insertByCreatedDesc d l).Pairwise (fun a b => createdKey b ≤ createdKey a) := by
  induction l with
  | nil => simp [insertByCreatedDesc]
  | cons e es ih =>
      rcases List.pairwise_cons.mp hl with ⟨he, hes⟩
      by_cases hde : createdKey d ≤ createdKey e
      · simp only [insertByCreatedDesc, hde, if_true]
        refine List.pairwise_cons.mpr ⟨?_, ih hes⟩
        intro x hx
        rcases mem_insertByCreatedDesc hx with h | h
        · rw [h]; exact hde
        · exact he x h
      · simp only [insertByCreatedDesc, hde, if_false]
        refine List.pairwise_cons.mpr ⟨?_, hl⟩
        intro x hx
        rcases List.mem_cons.mp hx with h | h
        · rw [h]; omega
        · exact (he x h).trans (by omega)

theorem pairwise_sortByCreatedDesc (l : List HistoryEntryDocument) :
    (sortByCreatedDesc l).Pairwise (fun a b => createdKey b ≤ createdKey a) := by
  induction l with
  | nil => simp [sortByCreatedDesc]
  | cons d ds ih => exact pairwise_insertByCreatedDesc d _ ih

/-- C7: a transition to signed-in (with the remote fetch succeeding)
replaces the local history list wholesale by the mapped fetch result,
which holds at most 20 remote entries in newest-first order (creation
time descending); a transition to signed-out clears the local list and
leaves the remote collection untouched (no remote deletion issued). -/
theorem C7_identity_transitions (s : AuthHistoryState) (u : Identity)
    (now : Nat) :
    ((onAuthStateChangedHandler (some u) true now s).history
        = (fetchHistoryEntries s.remoteDocs).map (mapHistoryDocumentToEntry now) ∧
      (onAuthStateChangedHandler (some u) true now s).history.length ≤ 20 ∧
      (fetchHistoryEntries s.remoteDocs).Pairwise
        (fun a b => createdKey b ≤ createdKey a) ∧
      (onAuthStateChangedHandler (some u) true now s).remoteDocs = s.remoteDocs) ∧
    ((onAuthStateChangedHandler none true now s).history = [] ∧
      (onAuthStateChangedHandler none true now s).remoteDocs = s.remoteDocs) := by
  refine ⟨⟨rfl, ?_, ?_, rfl⟩, rfl, rfl⟩
  · show ((fetchHistoryEntries s.remoteDocs).map
      (mapHistoryDocumentToEntry now)).length ≤ 20
    rw [List.length_map, fetchHistoryEntries, List.length_take]
    exact min_le_left _ _
  · exact List.Pairwise.sublist (List.take_sublist _ _)
      (pairwise_sortByCreatedDesc s.remoteDocs)

theorem take_le_take {α : Type} (l : List α) {i j : Nat} (h : i ≤ j) :
    l.take i <+: l.take j := by
  refine ⟨(l.take j).drop i, ?_⟩
  have h1 : (l.take j).take i = l.take i := by
    rw [List.take_take]
    congr 1
    omega
  calc l.take i ++ (l.take j).drop i
      = (l.take j).take i ++ (l.take j).drop i := by rw [h1]
    _ = l.take j := List.take_append_drop _ _

theorem revealerInv_init : RevealerInv revealerInit := by
  constructor
  · exact ⟨[], rfl⟩
  · intro h
    cases h

theorem revealerInv_step (s : RevealerState) (e : RevealerEvent)
    (hs : RevealerInv s) : RevealerInv (revealerStep s e) := by
  cases e with
  | setOutput t a =>
      show RevealerInv (runRevealEffect _)
      unfold runRevealEffect
      by_cases h0 : t = []
      · simp only [h0, if_true]
        exact ⟨⟨[], rfl⟩, by intro h; cases h⟩
      · by_cases ha : a = false
        · simp only [h0, ha, if_false, if_true]
          exact ⟨⟨[], by simp⟩, by intro h; cases h⟩
        · simp only [h0, ha, if_false]
          exact ⟨⟨t, rfl⟩, by intro _; simp⟩
  | tick =>
      by_cases harm : s.timerArmed = true
      · by_cases hlt : s.index + 1 < s.outputText.length
        · simp only [revealerStep, harm, hlt, if_true]
          refine ⟨⟨s.outputText.drop (s.index + 1), List.take_append_drop _ _⟩, ?_⟩
          intro _
          rfl
        · simp only [revealerStep, harm, hlt, if_true, if_false]
          refine ⟨⟨s.outputText.drop (s.index + 1), List.take_append_drop _ _⟩, ?_⟩
          intro h
          cases h
      · have harm2 : s.timerArmed = false := by
          cases h : s.timerArmed
          · rfl
          · exact absurd h harm
        simp only [revealerStep, harm2, Bool.false_eq_true, if_false]
        exact hs

theorem revealerInv_run (evs : List RevealerEvent) :
    RevealerInv (revealerRun revealerInit evs) := by
  suffices h : ∀ s, RevealerInv s → RevealerInv (revealerRun s evs) from
    h revealerInit revealerInv_init
  induction evs with
  | nil => intro s hs; exact hs
  | cons e es ih =>
      intro s hs
      exact ih (revealerStep s e) (revealerInv_step s e hs)

theorem revealer_tick_extends (s : RevealerState) (hs : RevealerInv s) :
    s.displayed <+: (revealerStep s .tick).displayed := by
  by_cases harm : s.timerArmed = true
  · have hd : s.displayed = s.outputText.take s.index := hs.2 harm
    by_cases hlt : s.index + 1 < s.outputText.length <;>
      · simp only [revealerStep, harm, hlt, if_true, if_false]
        rw [hd]
        exact take_le_take _ (Nat.le_succ _)
  · have harm2 : s.timerArmed = false := by
      cases h : s.timerArmed
      · rfl
      · exact absurd h harm
    simp only [revealerStep, harm2, Bool.false_eq_true, if_false]
    exact ⟨[], by simp⟩

theorem revealer_completes :
    ∀ (n : Nat) (s : RevealerState), s.timerArmed = true →
      s.index + n = s.outputText.length → 1 ≤ n →
      (revealerRun s (List.replicate n .tick)).displayed = s.outputText ∧
      (revealerRun s (List.replicate n .tick)).isAnimating = false ∧
      (revealerRun s (List.replicate n .tick)).timerArmed = false := by
  intro n
  induction n with
  | zero => intro s _ _ hpos; omega
  | succ m ih =>
      intro s harm hlen _
      cases m with
      | zero =>
          have hnlt : ¬ s.index + 1 < s.outputText.length := by omega
          have htk : s.outputText.take (s.index + 1) = s.outputText := by
            apply List.take_of_length_le
            omega
          simp only [List.replicate_succ, List.replicate_zero, revealerRun,
            List.foldl_cons, List.foldl_nil, revealerStep, harm, hnlt,
            if_true, if_false]
          exact ⟨htk, trivial, trivial⟩
      | succ k =>
          have hlt : s.index + 1 < s.outputText.length := by omega
          have hstep : revealerRun s (List.replicate (k + 1 + 1) .tick)
              = revealerRun (revealerStep s .tick)
                  (List.replicate (k + 1) .tick) := by
            simp [revealerRun, List.replicate_succ]
          rw [hstep]
          have harm2 : (revealerStep s .tick).timerArmed = true := by
            simp [revealerStep, harm, hlt]
          have hidx : (revealerStep s .tick).index + (k + 1)
              = (revealerStep s .tick).outputText.length := by
            simp only [revealerStep, harm, hlt, if_true]
            omega
          have h := ih (revealerStep s .tick) harm2 hidx (by omega)
          have hout : (revealerStep s .tick).outputText = s.outputText := by
            simp [revealerStep, harm, hlt]
          rw [hout] at h
          exact h

/-- C3: (a) after any event sequence from a fresh component, the
displayed value is a prefix of the current target — in particular, after
a new target replaces the old one mid-reveal no displayed value mixes
characters of the two (the effect cleanup cancels the old timer before
the new reveal starts); (b) an animation tick only ever extends the
displayed value, so the sequence is monotonically prefix-increasing; (c)
a non-empty target S revealed with animation terminates with exactly S
displayed and the animation finished after length-of-S ticks. -/
theorem C3_revealer_prefix_reveal :
    (∀ evs : List RevealerEvent,
      (revealerRun revealerInit evs).displayed
        <+: (revealerRun revealerInit evs).outputText) ∧
    (∀ evs : List RevealerEvent,
      (revealerRun revealerInit evs).displayed
        <+: (revealerStep (revealerRun revealerInit evs) .tick).displayed) ∧
    (∀ (S : List Char) (evs : List RevealerEvent), S ≠ [] →
      (revealerRun
          (revealerStep (revealerRun revealerInit evs) (.setOutput S true))
          (List.replicate S.length .tick)).displayed = S ∧
      (revealerRun
          (revealerStep (revealerRun revealerInit evs) (.setOutput S true))
          (List.replicate S.length .tick)).isAnimating = false) := by
  refine ⟨fun evs => (revealerInv_run evs).1,
          fun evs => revealer_tick_extends _ (revealerInv_run evs), ?_⟩
  intro S evs hS
  have hstate : revealerStep (revealerRun revealerInit evs) (.setOutput S true)
      = { outputText := S, shouldAnimate := true, displayed := [],
          isAnimating := true, index := 0, timerArmed := true } := by
    simp [revealerStep, runRevealEffect, hS]
  rw [hstate]
  have h := revealer_completes S.length
    { outputText := S, shouldAnimate := true, displayed := [],
      isAnimating := true, index := 0, timerArmed := true }
    rfl (by simp) (by cases S with | nil => exact absurd rfl hS | cons a l => simp)
  exact ⟨h.1, h.2.1⟩

/-- Witness for `C3_revealer_prefix_reveal` on the two-character target
"Hi" revealed from a fresh component. -/
theorem C3_revealer_prefix_reveal_witness :
    (revealerRun
        (revealerStep (revealerRun revealerInit []) (.setOutput ['H', 'i'] true))
        (List.replicate (['H', 'i'].length) .tick)).displayed = ['H', 'i'] :=
  (C3_revealer_prefix_reveal.2.2 ['H', 'i'] [] (by decide)).1

end Humality

